import Mathlib

/-!
Verification of the tuberun download manager against its design specification.

The development shallowly embeds the backend services of the repository:

* `src/main/services/history.ts`     — download history store (`addToHistory`);
* `src/main/services/downloader.ts`  — filename sanitization, error
  classification, retry wrapper, speed-adjustment filter chain, and the
  one-shot completion latch of `executeDownload`;
* `src/main/services/downloadQueue.ts` — the `DownloadQueueManager` scheduler.

Strings from the source are modelled as `List Char`; JavaScript numbers are
modelled as `Nat`/`Int` where the source only ever holds integers and as `ℚ`
where genuine fractions occur (tempo factors, retry jitter).  Where the
source divides a double by 2 the operation is exact, so `ℚ` is faithful on
the relevant domain.
-/

namespace Tuberun

/-! ## History store (`src/main/services/history.ts`) -/

/-- `HistoryItem` from `history.ts`.  Strings are `List Char`;
`timestamp` is milliseconds since the epoch. -/
structure HistoryItem where
  id : List Char
  url : List Char
  title : List Char
  outputPath : List Char
  timestamp : Nat
deriving DecidableEq, Repr

/-- `MAX_HISTORY_ITEMS` from `history.ts`. -/
def MAX_HISTORY_ITEMS : Nat := 50

/-- The fields of `addToHistory`'s argument (`Omit<HistoryItem, 'timestamp'>`). -/
structure NewHistoryItem where
  id : List Char
  url : List Char
  title : List Char
  outputPath : List Char
deriving DecidableEq, Repr

/-- `addToHistory` from `history.ts`, as a pure transformation of the stored
list.  `now` stands for `Date.now()`.  The source reads the current history,
stamps the new item, filters out any entry with the same `outputPath`,
prepends the new item and keeps the first `MAX_HISTORY_ITEMS` entries. -/
def addToHistory (history : List HistoryItem) (item : NewHistoryItem) (now : Nat) :
    List HistoryItem :=
  let newItem : HistoryItem :=
    { id := item.id, url := item.url, title := item.title,
      outputPath := item.outputPath, timestamp := now }
  let filtered := history.filter (fun h => h.outputPath ≠ item.outputPath)
  (newItem :: filtered).take MAX_HISTORY_ITEMS

/-! ## Filename sanitization (`sanitizeFilename` in `downloader.ts`) -/

/-- The character class `[<>:"/\\|?*\x00-\x1f]` of the first `replace`. -/
def illegalChar (c : Char) : Bool :=
  c = '<' || c = '>' || c = ':' || c = '"' || c = '/' || c = '\\' ||
  c = '|' || c = '?' || c = '*' || c.toNat ≤ 0x1f

/-- ASCII upper-casing, enough for the case-insensitive reserved-name regex. -/
def upperAscii (c : Char) : Char :=
  if 'a' ≤ c ∧ c ≤ 'z' then Char.ofNat (c.toNat - 32) else c

/-- The regex `^(CON|PRN|AUX|NUL|COM[1-9]|LPT[1-9])$/i`
(`WINDOWS_RESERVED_NAMES` in `downloader.ts`), applied to a whole string. -/
def windowsReservedName (s : List Char) : Bool :=
  let u := s.map upperAscii
  u = "CON".toList || u = "PRN".toList || u = "AUX".toList || u = "NUL".toList ||
  ((u.take 3 = "COM".toList || u.take 3 = "LPT".toList) &&
    match u.drop 3 with
    | [d] => '1' ≤ d && d ≤ '9'
    | _ => false)

/-- `str.split('.')[0]` — the segment before the first dot. -/
def beforeFirstDot (s : List Char) : List Char :=
  s.takeWhile (fun c => c ≠ '.')

/-- `str.replace(/[. ]+$/, '')` — strip trailing dots and spaces. -/
def stripTrailingDotsSpaces (s : List Char) : List Char :=
  (s.reverse.dropWhile (fun c => c = '.' || c = ' ')).reverse

/-- `sanitizeFilename` from `downloader.ts`.  `isWin` stands for the
module-level `isWindows` constant.  Steps, in source order: replace illegal
characters with `_`; on Windows prefix `_` when the part before the first dot
is a reserved device name; truncate to 80 characters; strip trailing dots and
spaces; fall back to `"download"` when empty. -/
def sanitizeFilename (isWin : Bool) (filename : List Char) : List Char :=
  let safe := filename.map (fun c => if illegalChar c then '_' else c)
  let safe := if isWin && windowsReservedName (beforeFirstDot safe)
    then '_' :: safe else safe
  let safe := safe.take 80
  let safe := stripTrailingDotsSpaces safe
  if safe = [] then "download".toList else safe

/-! ## Speed-adjustment filter chain (`adjustSpeed` in `downloader.ts`)

`adjustSpeed` builds a chain of `atempo` factors from the requested speed:
a while-loop emits `2.0` stages as long as the remainder exceeds `2.0`, and a
final stage is emitted only when the remainder exceeds `0.5`.  The arithmetic
(`remainingSpeed /= 2.0`) is exact on binary doubles, so `ℚ` is faithful. -/

/-- The `while (remainingSpeed > 2.0)` loop of `adjustSpeed`: returns the
emitted `2.0` stages together with the final `remainingSpeed`. -/
def atempoWhile (r : ℚ) : List ℚ × ℚ :=
  if h : r > 2 then
    let p := atempoWhile (r / 2)
    (2 :: p.1, p.2)
  else ([], r)
  termination_by (⌈r⌉).toNat
  decreasing_by
    have h2r : (2 : ℚ) < r := h
    have h3 : (3 : ℤ) ≤ ⌈r⌉ := by
      have h2 : (2 : ℤ) < ⌈r⌉ := Int.lt_ceil.mpr (by exact_mod_cast h2r)
      omega
    have hle : ⌈r / 2⌉ ≤ ⌈r⌉ - 1 := by
      have h2 : r / 2 ≤ r - 1 := by linarith
      have hmono := Int.ceil_le_ceil h2
      have heq : ⌈r - 1⌉ = ⌈r⌉ - 1 := by exact_mod_cast Int.ceil_sub_int r 1
      omega
    omega

/-- The full `atempo` factor list built by `adjustSpeed` for a requested
`speed`: the `2.0` stages of the while-loop, followed by the remainder when
it exceeds `0.5` (`if (remainingSpeed > 0.5) atempoFilters.push(...)`). -/
def atempoChain (speed : ℚ) : List ℚ :=
  let p := atempoWhile speed
  if p.2 > 1/2 then p.1 ++ [p.2] else p.1

/-! ## Error classification (`classifyError` in `downloader.ts`)

The classifier applies a fixed ordered table of case-insensitive regular
expressions to the raw error text; the first match decides the result.  The
regexes are alternations of literal substrings except for `rate.?limit`
(an optional arbitrary non-line-terminator character) and `timed?\s*out`
(optional `d`, then any run of whitespace), which are modelled exactly. -/

/-- ASCII lower-casing; the source regexes carry the `i` flag and all their
pattern characters are ASCII, for which non-Unicode regex canonicalization
is exactly ASCII case folding. -/
def lowerAscii (c : Char) : Char :=
  if 'A' ≤ c ∧ c ≤ 'Z' then Char.ofNat (c.toNat + 32) else c

/-- Does `pat` occur at the very start of `s`? -/
def matchHere : List Char → List Char → Bool
  | [], _ => true
  | _ :: _, [] => false
  | p :: ps, c :: cs => p = c && matchHere ps cs

/-- Does `p` hold of some suffix of `s` (i.e. does the pattern match at some
position)? -/
def someSuffix (p : List Char → Bool) : List Char → Bool
  | [] => p []
  | c :: cs => p (c :: cs) || someSuffix p cs

/-- Substring occurrence, the semantics of `/lit/.test(s)` for a literal. -/
def containsSub (pat s : List Char) : Bool :=
  someSuffix (fun t => matchHere pat t) s

/-- JavaScript's `\s` character class (WhiteSpace and LineTerminator),
by codepoint: space, tab, LF, VT, FF, CR, NBSP, Ogham space mark, the
U+2000 spacing block, LS, PS, NNBSP, MMSP, ideographic space, BOM. -/
def isJsSpace (c : Char) : Bool :=
  c = ' ' || c = '\t' || c = '\n' || c = '\r' ||
  c.toNat = 0x0b || c.toNat = 0x0c || c.toNat = 0xa0 || c.toNat = 0x1680 ||
  (0x2000 ≤ c.toNat && c.toNat ≤ 0x200a) ||
  c.toNat = 0x2028 || c.toNat = 0x2029 || c.toNat = 0x202f ||
  c.toNat = 0x205f || c.toNat = 0x3000 || c.toNat = 0xfeff

/-- JavaScript's `.` (without the `s` flag) matches anything but a
line terminator (LF, CR, LS, PS). -/
def isLineTerminator (c : Char) : Bool :=
  c = '\n' || c = '\r' || c.toNat = 0x2028 || c.toNat = 0x2029

/-- `rate.?limit` matching at the start of `s` (lower-cased input). -/
def rateLimitHere (s : List Char) : Bool :=
  matchHere ("rate".toList) s &&
    (matchHere ("limit".toList) (s.drop 4) ||
      (match s.drop 4 with
       | c :: rest => !isLineTerminator c && matchHere ("limit".toList) rest
       | [] => false))

/-- `timed?\s*out` matching at the start of `s` (lower-cased input).  Since
`out` starts with a non-space character, the greedy `\s*` is equivalent to
dropping the maximal whitespace run. -/
def timedOutHere (s : List Char) : Bool :=
  matchHere ("time".toList) s &&
    (let t := s.drop 4
     matchHere ("out".toList) (t.dropWhile isJsSpace) ||
       (match t with
        | 'd' :: rest => matchHere ("out".toList) (rest.dropWhile isJsSpace)
        | _ => false))

/-- `DownloadErrorType` from `downloader.ts`. -/
inductive DownloadErrorType
  | NETWORK | VIDEO_NOT_FOUND | VIDEO_PRIVATE | AGE_RESTRICTED | RATE_LIMITED
  | FFMPEG_ERROR | DISK_FULL | TIMEOUT | CANCELLED | UNKNOWN
deriving DecidableEq, Repr

/-- `ClassifiedError` from `downloader.ts`. -/
structure ClassifiedError where
  type : DownloadErrorType
  userMessage : List Char
  retryable : Bool
deriving DecidableEq, Repr

/-- `/Video unavailable|not available|This video is unavailable/i`. -/
def pVideoNotFound (e : List Char) : Bool :=
  let s := e.map lowerAscii
  containsSub ("video unavailable".toList) s ||
  containsSub ("not available".toList) s ||
  containsSub ("this video is unavailable".toList) s

/-- `/Private video|video is private/i`. -/
def pVideoPrivate (e : List Char) : Bool :=
  let s := e.map lowerAscii
  containsSub ("private video".toList) s ||
  containsSub ("video is private".toList) s

/-- `/Sign in to confirm your age|age-restricted/i`. -/
def pAgeRestricted (e : List Char) : Bool :=
  let s := e.map lowerAscii
  containsSub ("sign in to confirm your age".toList) s ||
  containsSub ("age-restricted".toList) s

/-- `/429|Too many requests|rate.?limit/i`. -/
def pRateLimited (e : List Char) : Bool :=
  let s := e.map lowerAscii
  containsSub ("429".toList) s ||
  containsSub ("too many requests".toList) s ||
  someSuffix (fun t => rateLimitHere t) s

/-- `/No space left|ENOSPC|disk full/i`. -/
def pDiskFull (e : List Char) : Bool :=
  let s := e.map lowerAscii
  containsSub ("no space left".toList) s ||
  containsSub ("enospc".toList) s ||
  containsSub ("disk full".toList) s

/-- `/timed?\s*out|ETIMEDOUT|ESOCKETTIMEDOUT/i`. -/
def pTimeout (e : List Char) : Bool :=
  let s := e.map lowerAscii
  someSuffix (fun t => timedOutHere t) s ||
  containsSub ("etimedout".toList) s ||
  containsSub ("esockettimedout".toList) s

/-- `/network|ECONNRESET|ECONNREFUSED|ENOTFOUND|socket hang up/i`. -/
def pNetwork (e : List Char) : Bool :=
  let s := e.map lowerAscii
  containsSub ("network".toList) s ||
  containsSub ("econnreset".toList) s ||
  containsSub ("econnrefused".toList) s ||
  containsSub ("enotfound".toList) s ||
  containsSub ("socket hang up".toList) s

/-- `/cancelled|aborted|SIGTERM|SIGKILL/i`. -/
def pCancelled (e : List Char) : Bool :=
  let s := e.map lowerAscii
  containsSub ("cancelled".toList) s ||
  containsSub ("aborted".toList) s ||
  containsSub ("sigterm".toList) s ||
  containsSub ("sigkill".toList) s

/-- `/ffmpeg|encoding|conversion/i`. -/
def pFfmpeg (e : List Char) : Bool :=
  let s := e.map lowerAscii
  containsSub ("ffmpeg".toList) s ||
  containsSub ("encoding".toList) s ||
  containsSub ("conversion".toList) s

/-- The ordered `patterns` table of `classifyError`:
matcher, error type, user-facing message, retryable flag — in source order. -/
def patterns : List ((List Char → Bool) × DownloadErrorType × List Char × Bool) :=
  [ (pVideoNotFound, .VIDEO_NOT_FOUND,
      ("This video is not available or may have been removed").toList, false),
    (pVideoPrivate, .VIDEO_PRIVATE, ("This video is private").toList, false),
    (pAgeRestricted, .AGE_RESTRICTED,
      ("This video is age-restricted and cannot be downloaded").toList, false),
    (pRateLimited, .RATE_LIMITED,
      ("YouTube is rate limiting requests. Please try again later").toList, true),
    (pDiskFull, .DISK_FULL,
      ("Not enough disk space to complete download").toList, false),
    (pTimeout, .TIMEOUT,
      ("The download timed out. Please check your connection and try again").toList,
      true),
    (pNetwork, .NETWORK,
      ("Network error. Please check your connection and try again").toList, true),
    (pCancelled, .CANCELLED, ("Download was cancelled").toList, false),
    (pFfmpeg, .FFMPEG_ERROR, ("Audio conversion failed").toList, false) ]

/-- The unknown-error fallback message: the raw text truncated to 200
characters with an ellipsis appended when longer. -/
def truncatedMessage (error : List Char) : List Char :=
  if error.length > 200 then error.take 200 ++ ("...".toList) else error

/-- `classifyError` from `downloader.ts`: first matching pattern of the
ordered table wins; no match yields `UNKNOWN`, non-retryable, with the
truncated raw text as message. -/
def classifyError (error : List Char) : ClassifiedError :=
  match patterns.find? (fun p => p.1 error) with
  | some (_, t, m, r) => ⟨t, m, r⟩
  | none => ⟨.UNKNOWN, truncatedMessage error, false⟩

/-! ## Progress events (`EnhancedDownloadProgress` in `downloadQueue.ts`)

Job ids (`crypto.randomUUID()` strings in the source) are modelled as `Nat`.
The `speed`, `speedBps`, `eta`, `etaSeconds` and `title` fields carry no
weight in any verified claim and are omitted. -/

/-- The `status` values of `EnhancedDownloadProgress`. -/
inductive ProgressStatus
  | pending | queued | downloading | converting | complete | error | retrying
deriving DecidableEq, Repr

/-- `EnhancedDownloadProgress` (the progress-event payload). -/
structure ProgressEvent where
  id : Nat
  status : ProgressStatus
  percent : Nat
  retryCount : Option Nat := none
  maxRetries : Option Nat := none
  queuePosition : Option Nat := none
  errMsg : Option (List Char) := none
deriving DecidableEq, Repr

/-! ## Retry wrapper (`executeDownloadWithRetry` in `downloader.ts`)

One `executeDownload` attempt either resolves or rejects with an error
message; the wrapper classifies rejections and retries with exponential
backoff.  The model is parameterized by the outcome of each attempt and by
the `Math.random()` draws used for jitter, and records the emitted progress
events, the slept durations (in ms) and the number of attempts made. -/

/-- Outcome of one `executeDownload` attempt. -/
inductive AttemptResult
  | success
  | failure (msg : List Char)
deriving DecidableEq, Repr

/-- The rejection message of a failed attempt. -/
def failureMsg : AttemptResult → List Char
  | .success => []
  | .failure e => e

/-- The `config` argument of `executeDownloadWithRetry`. -/
structure RetryConfig where
  maxRetries : Nat
  retryDelayBase : ℚ
  timeout : ℚ
deriving DecidableEq, Repr

/-- `sleepWithJitter` from `downloader.ts`: the slept duration is `baseMs`
plus a jitter of `Math.random() * 0.5 * baseMs`; `rand` is the
`Math.random()` draw. -/
def sleepDuration (rand baseMs : ℚ) : ℚ :=
  baseMs + rand * (1/2) * baseMs

/-- The `retrying` progress update emitted before a retry. -/
def retryingEvent (id attempt maxRetries : Nat) : ProgressEvent :=
  { id := id, status := .retrying, percent := 0,
    retryCount := some attempt, maxRetries := some maxRetries }

/-- Observable trace of one `executeDownloadWithRetry` run: the settled
result (`.ok` for resolve, `.error msg` for the thrown message), the
progress events emitted by the wrapper itself, the slept durations, and
how many attempts ran. -/
structure RetryTrace where
  result : Except (List Char) Unit
  events : List ProgressEvent
  sleeps : List ℚ
  attemptsMade : Nat
deriving Repr

/-- The `for (let attempt = 0; attempt <= config.maxRetries; attempt++)`
loop of `executeDownloadWithRetry`.  `fuel` is the number of remaining
iterations (the wrapper passes `maxRetries + 1`); `attempts n` is the
outcome of the `await` of attempt `n`; `lastError` mirrors the `lastError`
variable; the fuel-exhausted case is the trailing
`throw lastError || new Error('Download failed after retries')`. -/
def retryLoop (id : Nat) (attempts : Nat → AttemptResult) (cfg : RetryConfig)
    (rand : Nat → ℚ) : Nat → Nat → Option (List Char) → RetryTrace
  | 0, _, lastError =>
    { result := .error (lastError.getD (("Download failed after retries").toList)),
      events := [], sleeps := [], attemptsMade := 0 }
  | fuel + 1, attempt, _ =>
    let pre : List ProgressEvent × List ℚ :=
      if attempt > 0 then
        ([retryingEvent id attempt cfg.maxRetries],
         [sleepDuration (rand attempt) (cfg.retryDelayBase * 2 ^ (attempt - 1))])
      else ([], [])
    match attempts attempt with
    | .success =>
        { result := .ok (), events := pre.1, sleeps := pre.2, attemptsMade := 1 }
    | .failure e =>
        let classified := classifyError e
        if classified.retryable = false then
          { result := .error classified.userMessage, events := pre.1,
            sleeps := pre.2, attemptsMade := 1 }
        else if attempt = cfg.maxRetries then
          { result := .error classified.userMessage, events := pre.1,
            sleeps := pre.2, attemptsMade := 1 }
        else
          let t := retryLoop id attempts cfg rand fuel (attempt + 1) (some e)
          { result := t.result, events := pre.1 ++ t.events,
            sleeps := pre.2 ++ t.sleeps, attemptsMade := 1 + t.attemptsMade }

/-- `executeDownloadWithRetry` from `downloader.ts`. -/
def executeDownloadWithRetry (id : Nat) (attempts : Nat → AttemptResult)
    (cfg : RetryConfig) (rand : Nat → ℚ) : RetryTrace :=
  retryLoop id attempts cfg rand (cfg.maxRetries + 1) 0 none

/-! ## Queue manager (`DownloadQueueManager` in `downloadQueue.ts`)

The scheduler state comprises the job table (`Map<string, QueuedDownload>`,
modelled as an insertion-ordered list), the active-id set, the config, and —
as the observable trace — the list of progress events sent so far.
Omitted pieces of state and of `QueuedDownload`, none of which any claim
touches: `cleanupTimers` (the 5-second terminal-state purge), `window`,
`downloadFn`, `outputDir`, and the job fields `url`, `options`, `startedAt`,
`title` and `error`. -/

/-- The `status` field of `QueuedDownload`. -/
inductive JobStatus
  | queued | active | paused | completed | error
deriving DecidableEq, Repr

/-- `QueuedDownload` (fields relevant to the claims). -/
structure Job where
  id : Nat
  status : JobStatus
  retryCount : Nat
  maxRetries : Nat
  addedAt : Nat
  priority : Int
deriving DecidableEq, Repr

/-- `QueueConfig` from `downloadQueue.ts`. -/
structure QueueConfig where
  maxConcurrent : Nat
  maxRetries : Nat
  retryDelayBase : Nat
  downloadTimeout : Nat
  idleTimeout : Nat
deriving DecidableEq, Repr

/-- `DEFAULT_CONFIG` from `downloadQueue.ts`. -/
def DEFAULT_CONFIG : QueueConfig :=
  { maxConcurrent := 2, maxRetries := 3, retryDelayBase := 1000,
    downloadTimeout := 300000, idleTimeout := 30000 }

/-- `Partial<QueueConfig>`, the argument of `updateConfig`. -/
structure QueueConfigPatch where
  maxConcurrent : Option Nat := none
  maxRetries : Option Nat := none
  retryDelayBase : Option Nat := none
  downloadTimeout : Option Nat := none
  idleTimeout : Option Nat := none
deriving DecidableEq, Repr

/-- The spread `{ ...this.config, ...config }` of `updateConfig`. -/
def mergeConfig (c : QueueConfig) (p : QueueConfigPatch) : QueueConfig :=
  { maxConcurrent := p.maxConcurrent.getD c.maxConcurrent,
    maxRetries := p.maxRetries.getD c.maxRetries,
    retryDelayBase := p.retryDelayBase.getD c.retryDelayBase,
    downloadTimeout := p.downloadTimeout.getD c.downloadTimeout,
    idleTimeout := p.idleTimeout.getD c.idleTimeout }

/-- The scheduler state, with the emitted progress events as observable
trace (`sendProgress` appends to `events`). -/
structure QueueState where
  queue : List Job
  activeDownloads : List Nat
  config : QueueConfig
  events : List ProgressEvent
deriving DecidableEq, Repr

/-- The sort comparator
`(a, b) => b.priority - a.priority || a.addedAt - b.addedAt`:
`jobLE a b` holds when a stable sort may place `a` no later than `b`,
i.e. `b` does not strictly precede `a` under descending priority then
ascending submission time. -/
def jobLE (a b : Job) : Prop :=
  b.priority ≤ a.priority ∧ (b.priority = a.priority → a.addedAt ≤ b.addedAt)

instance : DecidableRel jobLE := fun _ _ =>
  inferInstanceAs (Decidable (_ ∧ _))

instance : IsTotal Job jobLE := by
  constructor
  intro a b
  rcases lt_trichotomy a.priority b.priority with h | h | h
  · exact Or.inr ⟨le_of_lt h, fun heq => absurd heq (by omega)⟩
  · rcases Nat.le_total a.addedAt b.addedAt with ht | ht
    · exact Or.inl ⟨le_of_eq h.symm, fun _ => ht⟩
    · exact Or.inr ⟨le_of_eq h, fun _ => ht⟩
  · exact Or.inl ⟨le_of_lt h, fun heq => absurd heq (by omega)⟩

instance : IsTrans Job jobLE := by
  constructor
  intro a b c ⟨hab1, hab2⟩ ⟨hbc1, hbc2⟩
  refine ⟨le_trans hbc1 hab1, fun heq => ?_⟩
  have h1 : b.priority = a.priority := by omega
  have h2 : c.priority = b.priority := by omega
  exact le_trans (hab2 h1) (hbc2 h2)

/-- The jobs with status `queued` (the `filter` of the scheduler's sorts). -/
def queuedJobs (q : List Job) : List Job :=
  q.filter (fun j => decide (j.status = .queued))

/-- Queued jobs in scheduling order.  JavaScript's `Array.prototype.sort`
is stable, and `List.insertionSort` is the matching stable sort. -/
def sortQueued (q : List Job) : List Job :=
  List.insertionSort jobLE (queuedJobs q)

/-- `getNextQueuedDownload`: the first element of the sorted queued jobs. -/
def getNextQueuedDownload (s : QueueState) : Option Job :=
  (sortQueued s.queue).head?

/-- A status write through the job table (`download.status = ...` for the
entry with this id). -/
def setStatus (q : List Job) (id : Nat) (st : JobStatus) : List Job :=
  q.map (fun j => if j.id = id then { j with status := st } else j)

/-- `Set.add`: append if absent. -/
def addToSet (l : List Nat) (id : Nat) : List Nat :=
  if id ∈ l then l else l ++ [id]

/-- The initial `downloading` progress update sent on admission. -/
def downloadingEvent (id : Nat) : ProgressEvent :=
  { id := id, status := .downloading, percent := 0 }

/-- A queue-position progress update. -/
def queuePositionEvent (id pos : Nat) : ProgressEvent :=
  { id := id, status := .queued, percent := 0, queuePosition := some pos }

/-- `updateQueuePositions`: a queued event with 1-based rank for every
queued job, in scheduling order. -/
def updateQueuePositionsEvents (q : List Job) : List ProgressEvent :=
  (sortQueued q).enum.map (fun p => queuePositionEvent p.2.id (p.1 + 1))

/-- `getQueuePosition`: 1-based rank among sorted queued jobs, 0 if absent. -/
def getQueuePosition (q : List Job) (id : Nat) : Nat :=
  match (sortQueued q).findIdx? (fun j => decide (j.id = id)) with
  | some i => i + 1
  | none => 0

/-- The `while (this.activeDownloads.size < this.config.maxConcurrent)`
loop of `processQueue`.  Each iteration admits `getNextQueuedDownload`:
marks it active, adds it to the active set, sends the `downloading` event,
re-sends queue positions, and (in the source) fires the pipeline
asynchronously — pipeline settlement is a separate operation here.  The
second component is the ghost list of admitted jobs, in admission order. -/
def processQueueFuel (fuel : Nat) (s : QueueState) : QueueState × List Job :=
  match fuel with
  | 0 => (s, [])
  | fuel + 1 =>
    if s.activeDownloads.length < s.config.maxConcurrent then
      match getNextQueuedDownload s with
      | none => (s, [])
      | some next =>
        let q' := setStatus s.queue next.id .active
        let s' : QueueState :=
          { s with
            queue := q',
            activeDownloads := addToSet s.activeDownloads next.id,
            events := s.events ++ [downloadingEvent next.id]
              ++ updateQueuePositionsEvents q' }
        let rest := processQueueFuel fuel s'
        (rest.1, next :: rest.2)
    else (s, [])

/-- `processQueue`: each iteration consumes one queued job, so the count of
queued jobs is sufficient fuel for the while-loop. -/
def processQueue (s : QueueState) : QueueState :=
  (processQueueFuel (queuedJobs s.queue).length s).1

/-- The jobs `processQueue` admits from state `s`, in admission order. -/
def admittedJobs (s : QueueState) : List Job :=
  (processQueueFuel (queuedJobs s.queue).length s).2

/-- `Map.set`: replace in place when the key exists, else append. -/
def mapSet (q : List Job) (j : Job) : List Job :=
  if q.any (fun b => decide (b.id = j.id)) then
    q.map (fun b => if b.id = j.id then j else b)
  else q ++ [j]

/-- `add(id, url, options, priority = 0)`: create a `queued` job
(`retryCount` 0, `maxRetries` copied from the config, `addedAt := now`),
store it, send the initial queue-position event, then `processQueue`. -/
def addOp (s : QueueState) (id : Nat) (priority : Int) (now : Nat) : QueueState :=
  let download : Job :=
    { id := id, status := .queued, retryCount := 0,
      maxRetries := s.config.maxRetries, addedAt := now, priority := priority }
  let q' := mapSet s.queue download
  processQueue
    { s with
      queue := q',
      events := s.events ++ [queuePositionEvent id (getQueuePosition q' id)] }

/-- `cancel(id)`: when the job is tracked, drop it from the active set if
active, delete it from the table, re-run the scheduler and return `true`;
otherwise return `false`.  (The cleanup-timer clearing and the
`emit('cancelled')` EventEmitter signal — not a progress event — are
omitted.) -/
def cancelOp (s : QueueState) (id : Nat) : QueueState × Bool :=
  match s.queue.find? (fun j => decide (j.id = id)) with
  | none => (s, false)
  | some download =>
    let act := if download.status = .active
      then s.activeDownloads.erase id else s.activeDownloads
    let s' := { s with
                queue := s.queue.filter (fun j => decide (j.id ≠ id)),
                activeDownloads := act }
    (processQueue s', true)

/-- `pause(id)`: only a `queued` job becomes `paused`. -/
def pauseOp (s : QueueState) (id : Nat) : QueueState × Bool :=
  match s.queue.find? (fun j => decide (j.id = id)) with
  | none => (s, false)
  | some download =>
    if download.status = .queued then
      ({ s with queue := setStatus s.queue id .paused }, true)
    else (s, false)

/-- `resume(id)`: only a `paused` job becomes `queued` again; re-runs the
scheduler. -/
def resumeOp (s : QueueState) (id : Nat) : QueueState × Bool :=
  match s.queue.find? (fun j => decide (j.id = id)) with
  | none => (s, false)
  | some download =>
    if download.status = .paused then
      (processQueue { s with queue := setStatus s.queue id .queued }, true)
    else (s, false)

/-- `updateConfig`: merge the patch over the config, then `processQueue`
("if max concurrent increased, process queue to fill slots"). -/
def updateConfigOp (s : QueueState) (p : QueueConfigPatch) : QueueState :=
  processQueue { s with config := mergeConfig s.config p }

/-- Settlement of `executeDownloadAsync` for a pipeline that resolved
(`.then` sets the status to `completed`; `.finally` frees the slot and
re-runs the scheduler; the 5s purge timer is omitted). -/
def settleOkOp (s : QueueState) (id : Nat) : QueueState :=
  processQueue { s with
                 queue := setStatus s.queue id .completed,
                 activeDownloads := s.activeDownloads.erase id }

/-- The `error` progress event sent from the `.catch` of
`executeDownloadAsync`. -/
def errorEvent (id : Nat) (msg : List Char) : ProgressEvent :=
  { id := id, status := .error, percent := 0, errMsg := some msg }

/-- Settlement for a pipeline that rejected: `.catch` sets the status to
`error` and sends the `error` progress event — `sendProgress` does not
consult the job table, so the event is sent even when the job was already
removed; `.finally` frees the slot and re-runs the scheduler. -/
def settleErrorOp (s : QueueState) (id : Nat) (msg : List Char) : QueueState :=
  processQueue { s with
                 queue := setStatus s.queue id .error,
                 events := s.events ++ [errorEvent id msg],
                 activeDownloads := s.activeDownloads.erase id }

/-- The operations an environment can drive the queue manager through. -/
inductive QOp
  | add (id : Nat) (priority : Int) (now : Nat)
  | cancel (id : Nat)
  | pause (id : Nat)
  | resume (id : Nat)
  | updateConfig (patch : QueueConfigPatch)
  | settleOk (id : Nat)
  | settleError (id : Nat) (msg : List Char)

/-- One step of the queue manager. -/
def applyOp (s : QueueState) : QOp → QueueState
  | .add id pri now => addOp s id pri now
  | .cancel id => (cancelOp s id).1
  | .pause id => (pauseOp s id).1
  | .resume id => (resumeOp s id).1
  | .updateConfig p => updateConfigOp s p
  | .settleOk id => settleOkOp s id
  | .settleError id msg => settleErrorOp s id msg

/-- A fresh manager (`new DownloadQueueManager(config)`). -/
def initialState (cfg : QueueConfig) : QueueState :=
  { queue := [], activeDownloads := [], config := cfg, events := [] }

/-- Run a sequence of operations. -/
def runOps (s : QueueState) (ops : List QOp) : QueueState :=
  ops.foldl applyOp s

/-! ## One-shot completion latch (`executeDownload` in `downloader.ts`)

`executeDownload` guards its terminal resolution with the `hasCompleted`
latch (`markComplete`).  The model tracks, for one job in the download
phase (default-speed path), the state the completion handlers read and
write; file-system effects (rename, temp-file cleanup) are not tracked. -/

/-- The per-job state visible to the completion handlers: the
`hasCompleted` latch, membership in `processedDownloads` and
`activeProcesses`, plus the observable counts of `addToHistory` calls,
`complete` progress emissions and fired resolutions (with the first
resolution's polarity). -/
structure ExecState where
  hasCompleted : Bool
  processed : Bool
  activeProc : Bool
  historyRecords : Nat
  completeEvents : Nat
  resolutions : Nat
  resolvedOk : Option Bool
deriving DecidableEq, Repr

/-- The state while the download process runs: latch unset, process
registered in `activeProcesses`, nothing observed yet. -/
def execInit : ExecState :=
  { hasCompleted := false, processed := false, activeProc := true,
    historyRecords := 0, completeEvents := 0, resolutions := 0,
    resolvedOk := none }

/-- `markComplete(success)` from `executeDownload`: compare-and-set on the
latch; on first call marks completion (and on success records the id in
`processedDownloads`) and returns `true`; later calls return `false`. -/
def markComplete (s : ExecState) (success : Bool) : ExecState × Bool :=
  if s.hasCompleted then (s, false)
  else ({ s with hasCompleted := true, processed := s.processed || success },
        true)

/-- The asynchronous completion signals that can race for one job:
`close` with exit code 0 (successful download), `close` with a non-zero
code, and the process `error` event. -/
inductive CompletionSignal
  | closeOk
  | closeFail (msg : List Char)
  | procError (msg : List Char)
deriving DecidableEq, Repr

/-- The `close`/`error` handlers of the download process (speed-1 path of
`executeDownload`).  Source order matters: on `close` with code 0 the
handler renames the temp file and calls `addToHistory` *before* consulting
the latch; only the latch owner then emits the `complete` event and
resolves.  On a non-zero exit code or on `error`, only the latch owner
cleans up and rejects. -/
def handleSignal (s : ExecState) (sig : CompletionSignal) : ExecState :=
  match sig with
  | .closeOk =>
    let s1 := { s with activeProc := false }
    let s2 := { s1 with historyRecords := s1.historyRecords + 1 }
    let p := markComplete s2 true
    if p.2 then
      { p.1 with
        completeEvents := p.1.completeEvents + 1,
        resolutions := p.1.resolutions + 1,
        resolvedOk := some true }
    else p.1
  | .closeFail _ =>
    let s1 := { s with activeProc := false }
    let p := markComplete s1 false
    if p.2 then
      { p.1 with resolutions := p.1.resolutions + 1, resolvedOk := some false }
    else p.1
  | .procError _ =>
    let s1 := { s with activeProc := false }
    let p := markComplete s1 false
    if p.2 then
      { p.1 with resolutions := p.1.resolutions + 1, resolvedOk := some false }
    else p.1

/-- Deliver a sequence of completion signals for one job. -/
def runSignals (sigs : List CompletionSignal) : ExecState :=
  sigs.foldl handleSignal execInit

/-! ## Cancellation kill signal (`cancelDownload` in `downloader.ts`) -/

/-- POSIX signal names used by `cancelDownload`. -/
inductive KillSignal
  | SIGTERM | SIGKILL
deriving DecidableEq, Repr

/-- The signal `cancelDownload` sends the active extractor process:
`process.kill(isWindows ? 'SIGKILL' : 'SIGTERM')`. -/
def cancelDownloadSignal (isWin : Bool) : KillSignal :=
  if isWin then .SIGKILL else .SIGTERM

/-- A run of operations in which every reconfiguration keeps
`maxConcurrent` at or above the number of then-active downloads (the
proviso under which the concurrency bound is an invariant — lowering the
ceiling below the live active count cannot retroactively stop running
downloads). -/
inductive GuardedRun : QueueState → List QOp → Prop
  | nil (s : QueueState) : GuardedRun s []
  | cons {s : QueueState} {op : QOp} {ops : List QOp}
      (hguard : ∀ p, op = .updateConfig p →
        s.activeDownloads.length ≤ (mergeConfig s.config p).maxConcurrent)
      (hrest : GuardedRun (applyOp s op) ops) : GuardedRun s (op :: ops)

/-- Example scheduler state: the spec's §8 fixture — jobs A(pri 0, t 1),
B(pri 5, t 2), C(pri 0, t 3), all queued, none active. -/
def exampleQueueState : QueueState :=
  { queue :=
      [ { id := 1, status := .queued, retryCount := 0, maxRetries := 3,
          addedAt := 1, priority := 0 },
        { id := 2, status := .queued, retryCount := 0, maxRetries := 3,
          addedAt := 2, priority := 5 },
        { id := 3, status := .queued, retryCount := 0, maxRetries := 3,
          addedAt := 3, priority := 0 } ],
    activeDownloads := [], config := DEFAULT_CONFIG, events := [] }

/-- The highest-priority job of `exampleQueueState`. -/
def exampleJobB : Job :=
  { id := 2, status := .queued, retryCount := 0, maxRetries := 3,
    addedAt := 2, priority := 5 }

/-- Example state reached by submitting one job (it is admitted at once). -/
def exampleCancelState : QueueState :=
  runOps (initialState DEFAULT_CONFIG) [.add 9 0 0]

/-! # Theorems -/

/-! ## Speed-chain decomposition (C8) -/

/-- Unfolding equation of the `adjustSpeed` while-loop. -/
theorem atempoWhile_eq (r : ℚ) :
    atempoWhile r = if r > 2 then
      ((2 : ℚ) :: (atempoWhile (r / 2)).1, (atempoWhile (r / 2)).2)
    else ([], r) := by
  rw [atempoWhile]
  split <;> simp

/-- The stages of the while-loop multiplied by the final remainder give
back the requested speed. -/
theorem atempoWhile_prod (r : ℚ) :
    ((atempoWhile r).1.prod) * (atempoWhile r).2 = r := by
  induction r using atempoWhile.induct with
  | case1 r h ih =>
      rw [atempoWhile_eq, if_pos h]
      simp only [List.prod_cons]
      rw [mul_assoc, ih]
      field_simp
  | case2 r h =>
      rw [atempoWhile_eq, if_neg h]
      simp

/-- Every stage emitted by the while-loop is the factor 2. -/
theorem atempoWhile_fst_mem (r : ℚ) (f : ℚ) (hf : f ∈ (atempoWhile r).1) :
    f = 2 := by
  induction r using atempoWhile.induct with
  | case1 r h ih =>
      rw [atempoWhile_eq, if_pos h] at hf
      rcases List.mem_cons.mp hf with h2 | h2
      · exact h2
      · exact ih h2
  | case2 r h =>
      rw [atempoWhile_eq, if_neg h] at hf
      simp at hf

/-- The final remainder of the while-loop never exceeds 2. -/
theorem atempoWhile_snd_le (r : ℚ) : (atempoWhile r).2 ≤ 2 := by
  induction r using atempoWhile.induct with
  | case1 r h ih =>
      rw [atempoWhile_eq, if_pos h]
      exact ih
  | case2 r h =>
      rw [atempoWhile_eq, if_neg h]
      exact le_of_not_lt h

/-- For inputs above 1/2 the final remainder stays above 1/2. -/
theorem atempoWhile_snd_gt_half (r : ℚ) (hr : 1/2 < r) :
    1/2 < (atempoWhile r).2 := by
  induction r using atempoWhile.induct with
  | case1 r h ih =>
      rw [atempoWhile_eq, if_pos h]
      exact ih (by linarith)
  | case2 r h =>
      rw [atempoWhile_eq, if_neg h]
      exact hr

/-- C8 (corrected): for every requested transcode speed in (1/2, 3] the
generated `atempo` chain has factors that all lie in [1/2, 2] and multiply
to the requested speed, and speeds above 2 are decomposed into two
in-range stages.  (The original claim's domain (0, 3] fails below 1/2,
where the code emits no filter at all — see the counterexample.) -/
theorem atempoChain_spec (speed : ℚ) (hlo : 1/2 < speed) (hhi : speed ≤ 3) :
    (∀ f ∈ atempoChain speed, 1/2 ≤ f ∧ f ≤ 2)
    ∧ (atempoChain speed).prod = speed
    ∧ (2 < speed → (atempoChain speed).length = 2) := by
  have hsnd := atempoWhile_snd_gt_half speed hlo
  have hle := atempoWhile_snd_le speed
  have hprod := atempoWhile_prod speed
  have hchain : atempoChain speed =
      (atempoWhile speed).1 ++ [(atempoWhile speed).2] := by
    simp only [atempoChain]
    rw [if_pos hsnd]
  refine ⟨?_, ?_, ?_⟩
  · intro f hf
    rw [hchain] at hf
    rcases List.mem_append.mp hf with h2 | h2
    · rw [atempoWhile_fst_mem speed f h2]
      norm_num
    · simp at h2
      subst h2
      exact ⟨le_of_lt hsnd, hle⟩
  · rw [hchain]
    rw [List.prod_append]
    simpa using hprod
  · intro h2
    have hhalf : atempoWhile (speed / 2) = ([], speed / 2) := by
      rw [atempoWhile_eq, if_neg (by linarith)]
    rw [hchain, atempoWhile_eq, if_pos h2, hhalf]
    simp

/-- C8 witness: the boundary speed 3 decomposes into 2 × 1.5. -/
theorem atempoChain_spec_witness :
    (∀ f ∈ atempoChain 3, 1/2 ≤ f ∧ f ≤ 2)
    ∧ (atempoChain 3).prod = 3
    ∧ (atempoChain 3).length = 2 := by
  have h := atempoChain_spec 3 (by norm_num) (by norm_num)
  exact ⟨h.1, h.2.1, h.2.2 (by norm_num)⟩

/-- C8 counterexample: the speed 2/5 lies in the claim's domain
((0, 3], ≠ 1) yet the generated chain is empty — no in-range stages, and
the product of factors is 1, not the requested speed. -/
theorem atempoChain_below_half_empty :
    (0 < (2/5 : ℚ) ∧ (2/5 : ℚ) ≤ 3 ∧ (2/5 : ℚ) ≠ 1)
    ∧ atempoChain (2/5) = []
    ∧ (atempoChain (2/5)).prod ≠ (2/5 : ℚ) := by
  have h1 : atempoWhile (2/5 : ℚ) = ([], 2/5) := by
    rw [atempoWhile_eq, if_neg (by norm_num)]
  have h2 : atempoChain (2/5 : ℚ) = [] := by
    simp only [atempoChain, h1]
    norm_num
  refine ⟨⟨by norm_num, by norm_num, by norm_num⟩, h2, ?_⟩
  rw [h2]
  norm_num

/-! ## Filename sanitization (C9) -/

/-- C9 (code_bug): the reserved-device-name guard of `sanitizeFilename`
runs *before* trailing dots and spaces are stripped, so the title
`"CON "` (trailing space) slips past the guard and sanitizes — on
Windows — to the bare reserved name `CON`, contradicting the claim's
reserved-name guarantee. -/
theorem sanitizeFilename_reserved_name_escape :
    sanitizeFilename true (("CON ").toList) = ("CON").toList
    ∧ windowsReservedName (("CON").toList) = true := by
  constructor <;> decide

/-! ## History invariants (C10) -/

/-- C10 (confirmed): after `addToHistory` the stored list starts with the
new item stamped with the current time, no other entry shares its
`outputPath`, the length is at most `MAX_HISTORY_ITEMS`, and the stored
list is an initial segment of the newest-first updated list — entries
beyond the cap, the oldest ones, are the ones dropped. -/
theorem addToHistory_spec (history : List HistoryItem) (item : NewHistoryItem)
    (now : Nat) :
    (addToHistory history item now).head? =
      some { id := item.id, url := item.url, title := item.title,
             outputPath := item.outputPath, timestamp := now }
    ∧ (∀ h ∈ (addToHistory history item now).tail,
        h.outputPath ≠ item.outputPath)
    ∧ (addToHistory history item now).length ≤ MAX_HISTORY_ITEMS
    ∧ (addToHistory history item now) <+:
        ({ id := item.id, url := item.url, title := item.title,
           outputPath := item.outputPath, timestamp := now } ::
         history.filter (fun h => h.outputPath ≠ item.outputPath)) := by
  refine ⟨?_, ?_, ?_, ?_⟩
  · simp [addToHistory, MAX_HISTORY_ITEMS]
  · intro h hh
    simp only [addToHistory, MAX_HISTORY_ITEMS, List.take_succ_cons,
      List.tail_cons] at hh
    have hmem := List.mem_of_mem_take hh
    have := List.of_mem_filter hmem
    simpa using this
  · simp only [addToHistory]
    exact le_trans (List.length_take_le _ _) (le_refl _)
  · simpa only [addToHistory] using
      List.take_prefix MAX_HISTORY_ITEMS
        ({ id := item.id, url := item.url, title := item.title,
           outputPath := item.outputPath, timestamp := now } ::
         history.filter (fun h => h.outputPath ≠ item.outputPath))

/-- C10 witness: adding an item whose `outputPath` duplicates the sole
stored entry leaves a single-element history headed by the new item. -/
theorem addToHistory_spec_witness :
    (∀ h ∈ (addToHistory
        [{ id := ("a").toList, url := ("u").toList, title := ("t").toList,
           outputPath := ("p").toList, timestamp := 5 }]
        { id := ("b").toList, url := ("v").toList, title := ("s").toList,
          outputPath := ("p").toList } 9).tail,
      h.outputPath ≠ ("p").toList)
    ∧ (addToHistory
        [{ id := ("a").toList, url := ("u").toList, title := ("t").toList,
           outputPath := ("p").toList, timestamp := 5 }]
        { id := ("b").toList, url := ("v").toList, title := ("s").toList,
          outputPath := ("p").toList } 9).length ≤ MAX_HISTORY_ITEMS :=
  ⟨(addToHistory_spec _ _ _).2.1, (addToHistory_spec _ _ _).2.2.1⟩

/-! ## One-shot completion latch (C6) -/

/-- The latch invariant is preserved along any signal sequence: once the
counters are controlled by the latch, at most one resolution and one
`complete` event ever fire. -/
theorem foldl_handleSignal_inv (sigs : List CompletionSignal) (s : ExecState)
    (h1 : s.hasCompleted = false → s.resolutions = 0 ∧ s.completeEvents = 0)
    (h2 : s.resolutions ≤ 1) (h3 : s.completeEvents ≤ 1) :
    (sigs.foldl handleSignal s).resolutions ≤ 1
    ∧ (sigs.foldl handleSignal s).completeEvents ≤ 1 := by
  induction sigs generalizing s with
  | nil => exact ⟨h2, h3⟩
  | cons sig rest ih =>
    rw [List.foldl_cons]
    rcases hc : s.hasCompleted with hfalse | htrue
    · obtain ⟨hr0, hc0⟩ := h1 hc
      apply ih
      · intro habs
        cases sig <;>
          simp [handleSignal, markComplete, hc, hr0, hc0] at habs
      · cases sig <;> simp [handleSignal, markComplete, hc, hr0, hc0]
      · cases sig <;> simp [handleSignal, markComplete, hc, hr0, hc0]
    · apply ih
      · intro habs
        cases sig <;> simp [handleSignal, markComplete, hc] at habs
      · cases sig <;> simpa [handleSignal, markComplete, hc] using h2
      · cases sig <;> simpa [handleSignal, markComplete, hc] using h3

/-- C6 (corrected): the terminal resolution of one `executeDownload` run
fires at most once under any sequence of racing completion signals, and at
most one `complete` event is emitted; in the close-success-then-error race
the second signal is a no-op and exactly one terminal event, one
resolution and one history record result.  (The original claim's blanket
"second and later signals are no-ops" fails when a close-success signal
arrives second — see the counterexample.) -/
theorem completion_latch_once (sigs : List CompletionSignal) (msg : List Char) :
    ((runSignals sigs).resolutions ≤ 1
      ∧ (runSignals sigs).completeEvents ≤ 1)
    ∧ runSignals [.closeOk, .procError msg] = runSignals [.closeOk]
    ∧ (runSignals [.closeOk, .procError msg]).completeEvents = 1
    ∧ (runSignals [.closeOk, .procError msg]).historyRecords = 1
    ∧ (runSignals [.closeOk, .procError msg]).resolutions = 1 := by
  refine ⟨?_, rfl, rfl, rfl, rfl⟩
  exact foldl_handleSignal_inv sigs execInit (fun _ => ⟨rfl, rfl⟩)
    (by simp [execInit]) (by simp [execInit])

/-- C6 counterexample: after a process-error signal has rejected the job,
a late close-success signal is *not* a no-op — its unguarded
`addToHistory` call appends a history record for the already-failed job. -/
theorem late_close_signal_not_noop :
    (runSignals [.procError [], .closeOk]).historyRecords = 1
    ∧ (runSignals [.procError []]).historyRecords = 0
    ∧ runSignals [.procError [], .closeOk] ≠ runSignals [.procError []] := by
  refine ⟨rfl, rfl, ?_⟩
  decide

/-! ## Retry wrapper (C3, C4) -/

/-- C3 (confirmed): when the first attempt fails with an error the
classifier marks non-retryable, the wrapper throws the classified
user-facing message at once — no `retrying` event, no backoff sleep, and
exactly one attempt, regardless of `maxRetries`. -/
theorem nonretryable_fails_immediately (id : Nat)
    (attempts : Nat → AttemptResult) (cfg : RetryConfig) (rand : Nat → ℚ)
    (e : List Char) (hfail : attempts 0 = .failure e)
    (hnr : (classifyError e).retryable = false) :
    executeDownloadWithRetry id attempts cfg rand =
      { result := .error (classifyError e).userMessage, events := [],
        sleeps := [], attemptsMade := 1 } := by
  unfold executeDownloadWithRetry
  simp [retryLoop, hfail, hnr]

/-- C3 witness: a private-video failure stops after the single first
attempt even though three retries were allowed. -/
theorem nonretryable_fails_immediately_witness :
    (classifyError (("Private video").toList)).retryable = false
    ∧ executeDownloadWithRetry 7 (fun _ => .failure (("Private video").toList))
        { maxRetries := 3, retryDelayBase := 1000, timeout := 300000 }
        (fun _ => 0) =
      { result := .error (classifyError (("Private video").toList)).userMessage,
        events := [], sleeps := [], attemptsMade := 1 } :=
  ⟨by decide,
   nonretryable_fails_immediately 7 (fun _ => .failure (("Private video").toList))
     { maxRetries := 3, retryDelayBase := 1000, timeout := 300000 }
     (fun _ => 0) (("Private video").toList) rfl (by decide)⟩

/-- When every attempt from `attempt` on fails retryably, the loop emits
one `retrying` event and one backoff sleep per attempt `attempt ≤ n ≤
maxRetries` and finally throws the classified message of the last
attempt's error. -/
theorem retryLoop_retryable_run (id : Nat) (attempts : Nat → AttemptResult)
    (cfg : RetryConfig) (rand : Nat → ℚ) :
    ∀ fuel attempt, attempt + fuel = cfg.maxRetries + 1 → 1 ≤ attempt →
      attempt ≤ cfg.maxRetries →
      (∀ n, attempt ≤ n → n ≤ cfg.maxRetries →
        ∃ e, attempts n = .failure e ∧ (classifyError e).retryable = true) →
      ∀ le, retryLoop id attempts cfg rand fuel attempt le =
        { result := .error
            (classifyError (failureMsg (attempts cfg.maxRetries))).userMessage,
          events := (List.range' attempt fuel).map
            (fun n => retryingEvent id n cfg.maxRetries),
          sleeps := (List.range' attempt fuel).map
            (fun n => sleepDuration (rand n) (cfg.retryDelayBase * 2 ^ (n - 1))),
          attemptsMade := fuel } := by
  intro fuel
  induction fuel with
  | zero => intro attempt h1 h2 h3 _ _; omega
  | succ fuel ih =>
    intro attempt h1 h2 h3 hfail le
    obtain ⟨e, he, hr⟩ := hfail attempt (le_refl _) h3
    by_cases hlast : attempt = cfg.maxRetries
    · have hf0 : fuel = 0 := by omega
      subst hf0
      subst hlast
      simp [retryLoop, he, hr, List.range', failureMsg,
        show 0 < cfg.maxRetries from h2]
    · have hrec := ih (attempt + 1) (by omega) (by omega) (by omega)
        (fun n hn1 hn2 => hfail n (by omega) hn2) (some e)
      simp [retryLoop, he, hr, if_neg hlast, hrec, List.range',
        show 0 < attempt from h2]
      omega

/-- C4 (confirmed): when all attempts fail with retryable-classified
errors, the wrapper emits `retrying` events carrying `retryCount = n` for
`n = 1 .. maxRetries`, sleeps `retryDelayBase * 2^(n-1)` ms plus a jitter
of at most 50% of that delay before retry `n`, finally throws the
classified user-facing message of the last error, and for `maxRetries = 2`
the total backoff before jitter is at least
`retryDelayBase + 2*retryDelayBase`. -/
theorem retry_backoff_schedule (id : Nat) (attempts : Nat → AttemptResult)
    (cfg : RetryConfig) (rand : Nat → ℚ)
    (hfail : ∀ n, n ≤ cfg.maxRetries →
      ∃ e, attempts n = .failure e ∧ (classifyError e).retryable = true)
    (hrand : ∀ n, 0 ≤ rand n ∧ rand n < 1)
    (hbase : 0 ≤ cfg.retryDelayBase) :
    (executeDownloadWithRetry id attempts cfg rand).events =
      (List.range' 1 cfg.maxRetries).map
        (fun n => retryingEvent id n cfg.maxRetries)
    ∧ (executeDownloadWithRetry id attempts cfg rand).sleeps =
      (List.range' 1 cfg.maxRetries).map
        (fun n => sleepDuration (rand n) (cfg.retryDelayBase * 2 ^ (n - 1)))
    ∧ (∀ n, cfg.retryDelayBase * 2 ^ (n - 1) ≤
          sleepDuration (rand n) (cfg.retryDelayBase * 2 ^ (n - 1))
        ∧ sleepDuration (rand n) (cfg.retryDelayBase * 2 ^ (n - 1)) ≤
          (3/2) * (cfg.retryDelayBase * 2 ^ (n - 1)))
    ∧ (executeDownloadWithRetry id attempts cfg rand).result =
      .error (classifyError (failureMsg (attempts cfg.maxRetries))).userMessage
    ∧ (cfg.maxRetries = 2 →
        (executeDownloadWithRetry id attempts cfg rand).sleeps.sum ≥
          cfg.retryDelayBase + 2 * cfg.retryDelayBase) := by
  obtain ⟨e0, he0, hr0⟩ := hfail 0 (Nat.zero_le _)
  have hbounds : ∀ n, cfg.retryDelayBase * 2 ^ (n - 1) ≤
      sleepDuration (rand n) (cfg.retryDelayBase * 2 ^ (n - 1))
      ∧ sleepDuration (rand n) (cfg.retryDelayBase * 2 ^ (n - 1)) ≤
        (3/2) * (cfg.retryDelayBase * 2 ^ (n - 1)) := by
    intro n
    have hd : (0 : ℚ) ≤ cfg.retryDelayBase * 2 ^ (n - 1) :=
      mul_nonneg hbase (by positivity)
    obtain ⟨hr1, hr2⟩ := hrand n
    unfold sleepDuration
    constructor
    · nlinarith
    · nlinarith
  have htrace : executeDownloadWithRetry id attempts cfg rand =
      { result := .error
          (classifyError (failureMsg (attempts cfg.maxRetries))).userMessage,
        events := (List.range' 1 cfg.maxRetries).map
          (fun n => retryingEvent id n cfg.maxRetries),
        sleeps := (List.range' 1 cfg.maxRetries).map
          (fun n => sleepDuration (rand n) (cfg.retryDelayBase * 2 ^ (n - 1))),
        attemptsMade := cfg.maxRetries + 1 } := by
    by_cases hmr : cfg.maxRetries = 0
    · unfold executeDownloadWithRetry
      simp [retryLoop, he0, hr0, hmr, List.range', failureMsg]
    · have h1le : 1 ≤ cfg.maxRetries := Nat.pos_of_ne_zero hmr
      have hrun := retryLoop_retryable_run id attempts cfg rand
        cfg.maxRetries 1 (by omega) (le_refl _) h1le
        (fun n _ hn2 => hfail n hn2) (some e0)
      unfold executeDownloadWithRetry
      simp [retryLoop, he0, hr0, if_neg (Ne.symm hmr), hrun]
      omega
  rw [htrace]
  refine ⟨rfl, rfl, hbounds, rfl, ?_⟩
  intro hmr2
  rw [hmr2]
  simp [List.range', List.sum_cons, sleepDuration]
  obtain ⟨ha1, ha2⟩ := hrand 1
  obtain ⟨hb1, hb2⟩ := hrand 2
  nlinarith

/-- C4 witness: two retries of a network failure wait at least
1000 + 2000 ms before jitter. -/
theorem retry_backoff_schedule_witness :
    (executeDownloadWithRetry 3 (fun _ => .failure (("network error").toList))
      { maxRetries := 2, retryDelayBase := 1000, timeout := 300000 }
      (fun _ => 1/2)).sleeps.sum ≥ 1000 + 2 * 1000 :=
  (retry_backoff_schedule 3 (fun _ => .failure (("network error").toList))
    { maxRetries := 2, retryDelayBase := 1000, timeout := 300000 }
    (fun _ => 1/2)
    (fun _ _ => ⟨("network error").toList, rfl, by decide⟩)
    (fun _ => by norm_num) (by norm_num)).2.2.2.2 rfl

/-! ## Error classifier (C5) -/

/-- `find?` returns the element at the first index whose predicate holds. -/
theorem find?_first_index {α : Type} (l : List α) (p : α → Bool) :
    ∀ i (h : i < l.length), p (l.get ⟨i, h⟩) = true →
      (∀ j (hj : j < i), p (l.get ⟨j, Nat.lt_trans hj h⟩) = false) →
      l.find? p = some (l.get ⟨i, h⟩) := by
  induction l with
  | nil => intro i h; simp at h
  | cons a as ih =>
    intro i h hp hprev
    cases i with
    | zero =>
      simp only [List.get] at hp
      simp [List.find?_cons, hp]
    | succ i =>
      have ha : p a = false := hprev 0 (Nat.succ_pos i)
      simp only [List.find?_cons, ha]
      simp only [List.get] at hp ⊢
      exact ih i (Nat.lt_of_succ_lt_succ h) hp
        (fun j hj => hprev (j + 1) (Nat.succ_lt_succ hj))

/-- C5 (confirmed): `classifyError` is a pure function of the raw text for
which (1) the first pattern of the fixed ordered table that matches decides
the result, so earlier, more specific patterns are never masked by later
generic ones; (2) the result is retryable exactly when its kind is network,
rate-limited or timeout; and (3) with no match the kind is `UNKNOWN`,
retryable is false, and the message is the raw text truncated to a bounded
length. -/
theorem classifyError_spec :
    (∀ e i (h : i < patterns.length),
        ((patterns.get ⟨i, h⟩).1 e = true) →
        (∀ j (hj : j < i), (patterns.get ⟨j, Nat.lt_trans hj h⟩).1 e = false) →
        classifyError e =
          { type := (patterns.get ⟨i, h⟩).2.1,
            userMessage := (patterns.get ⟨i, h⟩).2.2.1,
            retryable := (patterns.get ⟨i, h⟩).2.2.2 })
    ∧ (∀ e, (classifyError e).retryable = true ↔
        ((classifyError e).type = .NETWORK
          ∨ (classifyError e).type = .RATE_LIMITED
          ∨ (classifyError e).type = .TIMEOUT))
    ∧ (∀ e, (∀ p ∈ patterns, p.1 e = false) →
        classifyError e =
          { type := .UNKNOWN, userMessage := truncatedMessage e,
            retryable := false }) := by
  refine ⟨?_, ?_, ?_⟩
  · intro e i h hp hprev
    have hfind := find?_first_index patterns (fun p => p.1 e) i h hp hprev
    rcases hq : patterns.get ⟨i, h⟩ with ⟨f, t, m, r⟩
    rw [hq] at hfind
    simp [classifyError, hfind, hq]
  · intro e
    unfold classifyError
    cases hfind : patterns.find? (fun p => p.1 e) with
    | none => simp
    | some p =>
      have hmem := List.mem_of_find?_eq_some hfind
      obtain ⟨f, t, m, r⟩ := p
      simp only [patterns, List.mem_cons, List.not_mem_nil, or_false] at hmem
      rcases hmem with h | h | h | h | h | h | h | h | h <;>
        · injection h with h1 h2
          injection h2 with h2 h3
          injection h3 with h3 h4
          subst h2
          subst h4
          simp
  · intro e hall
    have hnone : patterns.find? (fun p => p.1 e) = none :=
      List.find?_eq_none.mpr (fun p hp => by simp [hall p hp])
    simp [classifyError, hnone]

/-- C5 witness: a text matching both the private-video pattern (index 1)
and the network pattern (index 6) classifies as private (the more specific,
earlier pattern); a timeout text is retryable exactly by kind; an
unmatched text falls back to `UNKNOWN` with its own text as message. -/
theorem classifyError_spec_witness :
    classifyError (("Private video: network down").toList) =
      { type := .VIDEO_PRIVATE, userMessage := ("This video is private").toList,
        retryable := false }
    ∧ ((classifyError (("timed out").toList)).retryable = true ↔
        ((classifyError (("timed out").toList)).type = .NETWORK
          ∨ (classifyError (("timed out").toList)).type = .RATE_LIMITED
          ∨ (classifyError (("timed out").toList)).type = .TIMEOUT))
    ∧ classifyError (("xyz").toList) =
      { type := .UNKNOWN, userMessage := ("xyz").toList, retryable := false } :=
  ⟨((classifyError_spec).1 (("Private video: network down").toList) 1 (by decide)
      (by decide)
      (fun j hj => by
        have hj0 : j = 0 := by omega
        subst hj0
        show (patterns.get ⟨0, by decide⟩).1
          (("Private video: network down").toList) = false
        decide)).trans (by decide),
   (classifyError_spec).2.1 (("timed out").toList),
   ((classifyError_spec).2.2 (("xyz").toList) (by decide)).trans (by decide)⟩

/-! ## Concurrency bound (C1) -/

/-- `Set.add` grows the active set by at most one element. -/
theorem length_addToSet_le (l : List Nat) (id : Nat) :
    (addToSet l id).length ≤ l.length + 1 := by
  unfold addToSet
  split
  · omega
  · simp

/-- The scheduling loop never touches the config. -/
theorem processQueueFuel_config (fuel : Nat) (s : QueueState) :
    ((processQueueFuel fuel s).1).config = s.config := by
  induction fuel generalizing s with
  | zero => rfl
  | succ fuel ih =>
    unfold processQueueFuel
    split
    · cases hget : getNextQueuedDownload s with
      | none => rfl
      | some next => exact ih _
    · rfl

/-- Each admission happens strictly below the ceiling, so the loop leaves
the active count at or below `max` of its starting value and the ceiling. -/
theorem processQueueFuel_active_le (fuel : Nat) (s : QueueState) :
    ((processQueueFuel fuel s).1).activeDownloads.length ≤
      max s.activeDownloads.length s.config.maxConcurrent := by
  induction fuel generalizing s with
  | zero => exact le_max_left _ _
  | succ fuel ih =>
    unfold processQueueFuel
    split
    · rename_i hlt
      cases hget : getNextQueuedDownload s with
      | none => exact le_max_left _ _
      | some next =>
        refine le_trans (ih _) ?_
        dsimp only
        have h1 : (addToSet s.activeDownloads next.id).length ≤
            s.config.maxConcurrent :=
          le_trans (length_addToSet_le _ _) (by omega)
        omega
    · exact le_max_left _ _

/-- `processQueue` preserves the concurrency bound. -/
theorem processQueue_inv (s : QueueState)
    (h : s.activeDownloads.length ≤ s.config.maxConcurrent) :
    (processQueue s).activeDownloads.length ≤
      (processQueue s).config.maxConcurrent := by
  unfold processQueue
  rw [processQueueFuel_config]
  refine le_trans (processQueueFuel_active_le _ _) ?_
  omega

/-- Every operation preserves the concurrency bound, provided a
reconfiguration never lowers `maxConcurrent` below the live active count. -/
theorem applyOp_preserves (s : QueueState) (op : QOp)
    (hinv : s.activeDownloads.length ≤ s.config.maxConcurrent)
    (hguard : ∀ p, op = .updateConfig p →
      s.activeDownloads.length ≤ (mergeConfig s.config p).maxConcurrent) :
    (applyOp s op).activeDownloads.length ≤
      (applyOp s op).config.maxConcurrent := by
  cases op with
  | add id pri now => exact processQueue_inv _ hinv
  | cancel id =>
    simp only [applyOp, cancelOp]
    cases hfind : s.queue.find? (fun j => decide (j.id = id)) with
    | none => exact hinv
    | some d =>
      dsimp only
      apply processQueue_inv
      have herase : (if d.status = .active then s.activeDownloads.erase id
          else s.activeDownloads).length ≤ s.activeDownloads.length := by
        split
        · exact List.Sublist.length_le (List.erase_sublist _ _)
        · exact le_refl _
      exact le_trans herase hinv
  | pause id =>
    simp only [applyOp, pauseOp]
    cases hfind : s.queue.find? (fun j => decide (j.id = id)) with
    | none => exact hinv
    | some d =>
      dsimp only
      split
      · exact hinv
      · exact hinv
  | resume id =>
    simp only [applyOp, resumeOp]
    cases hfind : s.queue.find? (fun j => decide (j.id = id)) with
    | none => exact hinv
    | some d =>
      dsimp only
      split
      · exact processQueue_inv _ hinv
      · exact hinv
  | updateConfig p => exact processQueue_inv _ (hguard p rfl)
  | settleOk id =>
    apply processQueue_inv
    exact le_trans (List.Sublist.length_le (List.erase_sublist _ _)) hinv
  | settleError id msg =>
    apply processQueue_inv
    exact le_trans (List.Sublist.length_le (List.erase_sublist _ _)) hinv

/-- C1 (corrected): over every sequence of submissions, completions,
cancellations, pauses, resumes and reconfigurations in which no
reconfiguration lowers `maxConcurrent` below the then-active count, the
number of active downloads never exceeds the configured `maxConcurrent` at
any intermediate point.  (Unrestricted reconfiguration breaks the bound:
lowering the ceiling below the live active count does not stop running
downloads — see the counterexample.) -/
theorem activeCount_le_maxConcurrent (s : QueueState) (ops : List QOp)
    (hinv : s.activeDownloads.length ≤ s.config.maxConcurrent)
    (hrun : GuardedRun s ops) :
    ∀ t ∈ List.scanl applyOp s ops,
      t.activeDownloads.length ≤ t.config.maxConcurrent := by
  induction hrun with
  | nil s0 =>
    intro t ht
    simp at ht
    subst ht
    exact hinv
  | cons hguard hrest ih =>
    intro t ht
    rw [List.scanl_cons] at ht
    rcases List.mem_cons.mp ht with rfl | ht
    · exact hinv
    · exact ih (applyOp_preserves _ _ hinv hguard) t ht

/-- C1 witness: three submissions, one completion and an upward
reconfiguration keep the active count within the ceiling. -/
theorem activeCount_le_maxConcurrent_witness :
    (runOps (initialState DEFAULT_CONFIG)
      [.add 1 0 0, .add 2 0 1, .add 3 0 2, .settleOk 1,
       .updateConfig { maxConcurrent := some 3 }]).activeDownloads.length ≤
    (runOps (initialState DEFAULT_CONFIG)
      [.add 1 0 0, .add 2 0 1, .add 3 0 2, .settleOk 1,
       .updateConfig { maxConcurrent := some 3 }]).config.maxConcurrent :=
  activeCount_le_maxConcurrent (initialState DEFAULT_CONFIG)
    [.add 1 0 0, .add 2 0 1, .add 3 0 2, .settleOk 1,
     .updateConfig { maxConcurrent := some 3 }]
    (by decide)
    (.cons (fun p h => by cases h)
      (.cons (fun p h => by cases h)
        (.cons (fun p h => by cases h)
          (.cons (fun p h => by cases h)
            (.cons (fun p h => by
                injection h with h1
                subst h1
                decide)
              (.nil _))))))
    _ (by decide)

/-- C1 counterexample: with `maxConcurrent = 2`, submitting two jobs (both
admitted) and then reconfiguring to `maxConcurrent = 1` leaves two active
downloads — the active count exceeds the configured limit. -/
theorem activeCount_exceeds_after_downsize :
    (runOps (initialState DEFAULT_CONFIG)
      [.add 1 0 0, .add 2 0 1,
       .updateConfig { maxConcurrent := some 1 }]).activeDownloads.length >
    (runOps (initialState DEFAULT_CONFIG)
      [.add 1 0 0, .add 2 0 1,
       .updateConfig { maxConcurrent := some 1 }]).config.maxConcurrent := by
  decide

/-! ## Priority/FIFO admission order (C2) -/

/-- `jobLE` is reflexive. -/
theorem jobLE_refl (j : Job) : jobLE j j :=
  ⟨le_refl _, fun _ => le_refl _⟩

/-- The job selected by `getNextQueuedDownload` is queued and weakly
precedes every queued job under descending priority then ascending
submission time. -/
theorem getNext_maximal (s : QueueState) (j : Job)
    (hj : getNextQueuedDownload s = some j) :
    j ∈ queuedJobs s.queue ∧ ∀ k ∈ queuedJobs s.queue, jobLE j k := by
  unfold getNextQueuedDownload sortQueued at hj
  have hsorted := List.sorted_insertionSort jobLE (queuedJobs s.queue)
  have hperm := List.perm_insertionSort jobLE (queuedJobs s.queue)
  cases hl : List.insertionSort jobLE (queuedJobs s.queue) with
  | nil => rw [hl] at hj; simp at hj
  | cons a rest =>
    rw [hl] at hj hsorted hperm
    simp only [List.head?_cons, Option.some.injEq] at hj
    subst hj
    have hmem : a ∈ queuedJobs s.queue :=
      hperm.mem_iff.mp (List.mem_cons_self _ _)
    refine ⟨hmem, fun k hk => ?_⟩
    have hk2 : k ∈ a :: rest := hperm.mem_iff.mpr hk
    rcases List.mem_cons.mp hk2 with rfl | hk3
    · exact jobLE_refl _
    · exact ((List.sorted_cons.mp hsorted).1) k hk3

/-- Marking a job active only shrinks the set of queued jobs. -/
theorem queuedJobs_setStatus_active (q : List Job) (i : Nat) (k : Job)
    (hk : k ∈ queuedJobs (setStatus q i .active)) : k ∈ queuedJobs q := by
  unfold queuedJobs at hk ⊢
  unfold setStatus at hk
  obtain ⟨hk1, hk2⟩ := List.mem_filter.mp hk
  obtain ⟨j, hj, hfj⟩ := List.mem_map.mp hk1
  by_cases hid : j.id = i
  · rw [if_pos hid] at hfj
    subst hfj
    simp at hk2
  · rw [if_neg hid] at hfj
    subst hfj
    exact List.mem_filter.mpr ⟨hj, hk2⟩

/-- Every job the scheduling loop admits was queued when the loop began. -/
theorem admitted_sub_queued (fuel : Nat) (s : QueueState) (k : Job)
    (hk : k ∈ (processQueueFuel fuel s).2) : k ∈ queuedJobs s.queue := by
  induction fuel generalizing s with
  | zero => simp [processQueueFuel] at hk
  | succ fuel ih =>
    unfold processQueueFuel at hk
    split at hk
    · cases hget : getNextQueuedDownload s with
      | none => rw [hget] at hk; simp at hk
      | some next =>
        rw [hget] at hk
        dsimp only at hk
        rcases List.mem_cons.mp hk with rfl | hk2
        · exact (getNext_maximal s k hget).1
        · exact queuedJobs_setStatus_active _ _ _ (ih _ hk2)
    · simp at hk

/-- The admitted jobs of one scheduling pass form a weakly descending
chain under the scheduling order. -/
theorem admitted_chain (fuel : Nat) (s : QueueState) :
    List.Chain' jobLE (processQueueFuel fuel s).2 := by
  induction fuel generalizing s with
  | zero => simp [processQueueFuel]
  | succ fuel ih =>
    unfold processQueueFuel
    split
    · cases hget : getNextQueuedDownload s with
      | none => simp
      | some next =>
        dsimp only
        refine List.chain'_cons'.mpr ⟨?_, ih _⟩
        intro y hy
        have hy2 := List.mem_of_mem_head? hy
        have hy3 := admitted_sub_queued _ _ _ hy2
        have hy4 := queuedJobs_setStatus_active _ _ _ hy3
        exact (getNext_maximal s next hget).2 y hy4
    · simp

/-- C2 (confirmed): whenever the scheduler selects a job for admission it
is a tracked `queued` job that, among all queued jobs at that moment, has
the highest priority with ties broken by the earliest `addedAt`
(`jobLE j k` says `k` does not strictly precede `j` in that order); and
the jobs admitted in one scheduling pass are ordered by descending
priority then ascending submission time. -/
theorem scheduler_admission_order (s : QueueState) :
    (∀ j, getNextQueuedDownload s = some j →
      j ∈ s.queue ∧ j.status = .queued
        ∧ ∀ k ∈ s.queue, k.status = .queued → jobLE j k)
    ∧ List.Chain' jobLE (admittedJobs s) := by
  constructor
  · intro j hj
    obtain ⟨hjq, hmax⟩ := getNext_maximal s j hj
    obtain ⟨hj1, hj2⟩ := List.mem_filter.mp hjq
    refine ⟨hj1, by simpa using hj2, fun k hk hkq => ?_⟩
    exact hmax k (List.mem_filter.mpr ⟨hk, by simpa using hkq⟩)
  · exact admitted_chain _ _

/-- C2 witness: in the spec's fixture A(pri 0, t 1), B(pri 5, t 2),
C(pri 0, t 3), the scheduler selects B, which weakly precedes every queued
job, and the admitted jobs are chained in scheduling order. -/
theorem scheduler_admission_order_witness :
    (exampleJobB ∈ exampleQueueState.queue
      ∧ exampleJobB.status = .queued
      ∧ ∀ k ∈ exampleQueueState.queue, k.status = .queued →
          jobLE exampleJobB k)
    ∧ List.Chain' jobLE (admittedJobs exampleQueueState) :=
  ⟨(scheduler_admission_order exampleQueueState).1 exampleJobB (by decide),
   (scheduler_admission_order exampleQueueState).2⟩

/-! ## Cancellation (C7) -/

/-- A status write never changes which ids the job table holds. -/
theorem setStatus_ids (q : List Job) (i : Nat) (st : JobStatus) (k : Job)
    (hk : k ∈ setStatus q i st) : ∃ j ∈ q, k.id = j.id := by
  unfold setStatus at hk
  obtain ⟨j, hj, hfj⟩ := List.mem_map.mp hk
  refine ⟨j, hj, ?_⟩
  by_cases hid : j.id = i
  · rw [if_pos hid] at hfj
    subst hfj
    rfl
  · rw [if_neg hid] at hfj
    subst hfj
    rfl

/-- The scheduling loop never introduces new job ids. -/
theorem processQueueFuel_queue_ids (fuel : Nat) (s : QueueState) (k : Job)
    (hk : k ∈ ((processQueueFuel fuel s).1).queue) :
    ∃ j ∈ s.queue, k.id = j.id := by
  induction fuel generalizing s with
  | zero => exact ⟨k, hk, rfl⟩
  | succ fuel ih =>
    unfold processQueueFuel at hk
    split at hk
    · cases hget : getNextQueuedDownload s with
      | none => rw [hget] at hk; exact ⟨k, hk, rfl⟩
      | some next =>
        rw [hget] at hk
        dsimp only at hk
        obtain ⟨j', hj', hid'⟩ := ih _ hk
        obtain ⟨j, hj, hid⟩ := setStatus_ids _ _ _ _ hj'
        exact ⟨j, hj, by omega⟩
    · exact ⟨k, hk, rfl⟩

/-- The scheduling loop only appends to the event trace. -/
theorem processQueueFuel_events_mono (fuel : Nat) (s : QueueState)
    (e : ProgressEvent) (he : e ∈ s.events) :
    e ∈ ((processQueueFuel fuel s).1).events := by
  induction fuel generalizing s with
  | zero => exact he
  | succ fuel ih =>
    unfold processQueueFuel
    split
    · cases hget : getNextQueuedDownload s with
      | none => exact he
      | some next =>
        dsimp only
        apply ih
        dsimp only
        simp only [List.mem_append]
        exact Or.inl (Or.inl he)
    · exact he

/-- C7 (corrected): `cancel(id)` reports `true` exactly when the job was
tracked, and afterwards no job with that id remains in the table; the
extractor subprocess receives `SIGKILL` on Windows but the graceful
`SIGTERM` elsewhere (not a forceful signal on every platform); and the
cancelled job's in-flight pipeline is *not* silenced — its later
rejection still sends an `error` progress event carrying that id. -/
theorem cancel_spec (s : QueueState) (id : Nat) :
    ((cancelOp s id).2 = true ↔ ∃ j ∈ s.queue, j.id = id)
    ∧ (∀ j ∈ (cancelOp s id).1.queue, j.id ≠ id)
    ∧ cancelDownloadSignal true = .SIGKILL
    ∧ cancelDownloadSignal false = .SIGTERM
    ∧ (∀ msg, errorEvent id msg ∈
        (settleErrorOp ((cancelOp s id).1) id msg).events) := by
  refine ⟨?_, ?_, rfl, rfl, ?_⟩
  · unfold cancelOp
    cases hfind : s.queue.find? (fun j => decide (j.id = id)) with
    | none =>
      dsimp only
      refine iff_of_false (by simp) ?_
      rintro ⟨j, hj, hid⟩
      have := List.find?_eq_none.mp hfind j hj
      simp [hid] at this
    | some d =>
      dsimp only
      refine iff_of_true rfl ?_
      refine ⟨d, List.mem_of_find?_eq_some hfind, ?_⟩
      have := List.find?_some hfind
      simpa using this
  · unfold cancelOp
    cases hfind : s.queue.find? (fun j => decide (j.id = id)) with
    | none =>
      dsimp only
      intro j hj hid
      have := List.find?_eq_none.mp hfind j hj
      simp [hid] at this
    | some d =>
      dsimp only
      intro j hj
      obtain ⟨j', hj', hid'⟩ := processQueueFuel_queue_ids _ _ _ hj
      have hj'2 := List.mem_filter.mp hj'
      have : j'.id ≠ id := by simpa using hj'2.2
      omega
  · intro msg
    unfold settleErrorOp processQueue
    apply processQueueFuel_events_mono
    dsimp only
    simp

/-- C7 witness: cancelling the single admitted job returns `true`, empties
its table entry, and its pipeline's later rejection still records an
`error` event for the cancelled id. -/
theorem cancel_spec_witness :
    (cancelOp exampleCancelState 9).2 = true
    ∧ (∀ j ∈ (cancelOp exampleCancelState 9).1.queue, j.id ≠ 9)
    ∧ errorEvent 9 [] ∈
        (settleErrorOp ((cancelOp exampleCancelState 9).1) 9 []).events :=
  ⟨(cancel_spec exampleCancelState 9).1.mpr (by decide),
   (cancel_spec exampleCancelState 9).2.1,
   (cancel_spec exampleCancelState 9).2.2.2.2 []⟩

/-- C7 counterexample: on non-Windows platforms the kill signal is the
graceful `SIGTERM`, not a forceful one; and after `cancel(1)` the
in-flight pipeline's rejection still emits an `error` progress event for
id 1 — the event trace grows from 2 to 3 events, the last being
`error` for the cancelled id — refuting "no further progress or terminal
events are ever emitted for that id". -/
theorem cancelled_job_still_gets_error_event :
    cancelDownloadSignal false = .SIGTERM
    ∧ (KillSignal.SIGTERM ≠ KillSignal.SIGKILL)
    ∧ ((runOps (initialState DEFAULT_CONFIG)
          [.add 1 0 0, .cancel 1]).events.length = 2)
    ∧ ((runOps (initialState DEFAULT_CONFIG)
          [.add 1 0 0, .cancel 1,
           .settleError 1 (("Download failed").toList)]).events.length = 3)
    ∧ ((runOps (initialState DEFAULT_CONFIG)
          [.add 1 0 0, .cancel 1,
           .settleError 1 (("Download failed").toList)]).events.getLast? =
        some (errorEvent 1 (("Download failed").toList))) := by
  refine ⟨rfl, by decide, by decide, by decide, by decide⟩

end Tuberun
